import Mathlib

/-!
Verification development for the LocalWatch peer-mesh coordination layer.

Shallow embedding of the TypeScript sources:
* `MeshNetwork` (p2p/meshNetwork.ts): peer registry, leader election,
  relay/broadcast, disconnect/reconnect grace window.
* `SyncManager` (sync/syncManager.ts): three-tier drift correction.
* `MediaController` (sync/mediaController.ts): media state, file-readiness
  coordination, media-change voting.

Modelling conventions:
* JavaScript `Map` objects are association lists with unique keys kept in
  insertion order; `Map.set` replaces the value in place for an existing key
  and appends for a new key (`mapSet` below).
* JavaScript numbers (priorities, drift seconds) are rationals; byte sizes
  and millisecond windows are naturals.
* Possibly-undefined message fields are `Option`s.
* Side effects (UI callbacks, console warnings, outgoing broadcasts) are
  reified as explicit event lists returned next to the updated state.
* Wall-clock timestamps (`lastSeen`, vote `startTime`) and timer handles are
  not part of the state; timers firing are explicit events of the step
  relations.
-/

namespace LocalWatch

/-- Association-list model of a JavaScript `Map`: `set` replaces in place for
an existing key and appends for a fresh key, preserving insertion order. -/
def mapSet {β : Type} (k : String) (v : β) : List (String × β) → List (String × β)
  | [] => [(k, v)]
  | (k', v') :: rest => if k' = k then (k, v) :: rest else (k', v') :: mapSet k v rest

/-- Association-list model of `Map.get`. -/
def mapGet {β : Type} (k : String) : List (String × β) → Option β
  | [] => none
  | (k', v') :: rest => if k' = k then some v' else mapGet k rest

/-! ## Mesh data model (p2p/meshNetwork.ts) -/

/-- `Peer.status` in meshNetwork.ts. -/
inductive PeerStatus
  | connecting
  | connected
  | disconnected
  | reconnecting
deriving DecidableEq

/-- A `Peer` record of the mesh registry.  The SimplePeer connection object is
modelled by an opaque numeric identity `conn` plus its `destroyed` flag;
`lastSeen` is omitted (wall clock, unused by the verified operations). -/
structure Peer where
  id : String
  nickname : String
  conn : Nat
  status : PeerStatus
  priority : ℚ
  destroyed : Bool
deriving DecidableEq

/-- An election candidate as built in `MeshNetwork.electLeader`. -/
structure Candidate where
  id : String
  priority : ℚ
deriving DecidableEq

/-- Head of the stable descending sort used in `electLeader`
(`candidates.sort((a, b) => b.priority - a.priority)` followed by
`candidates[0]`).  JavaScript `Array.prototype.sort` is stable, so the head of
the sorted array is the earliest element of maximal priority; this fold keeps
the current best and replaces it only on a strictly greater priority, which
computes exactly that element. -/
def pickFirstMax : Candidate → List Candidate → Candidate
  | best, [] => best
  | best, c :: cs => pickFirstMax (if best.priority < c.priority then c else best) cs

/-- Candidate list of `MeshNetwork.electLeader`: local peer first, then every
registry peer whose status is `connected`, in registry (insertion) order. -/
def candidatesOf (localId : String) (localPriority : ℚ) (peers : List Peer) :
    List Candidate :=
  ⟨localId, localPriority⟩ ::
    (peers.filter (fun p => p.status = PeerStatus.connected)).map
      (fun p => ⟨p.id, p.priority⟩)

/-- `MeshNetwork.electLeader`: winner id of the stable descending sort by
priority over the candidates. -/
def electLeader (localId : String) (localPriority : ℚ) (peers : List Peer) :
    String :=
  (pickFirstMax ⟨localId, localPriority⟩
    ((peers.filter (fun p => p.status = PeerStatus.connected)).map
      (fun p => ⟨p.id, p.priority⟩))).id

/-! ## Relay (MeshNetwork.handlePeerData / relayMessage) -/

/-- The `SyncMessage.type` values relevant to mesh relaying. -/
inductive MsgType
  | sync
  | play
  | pause
  | seek
  | buffering
  | media_source
  | chat
  | other
deriving DecidableEq

/-- A wire message as far as the relay step is concerned: its kind and its
`senderId` field (the relay exclusion uses the message's senderId, not the
link the message arrived on). -/
structure WireMsg where
  type : MsgType
  senderId : String
deriving DecidableEq

/-- Membership in the relay list of `handlePeerData`:
`['sync', 'play', 'pause', 'seek', 'buffering', 'media_source']`. -/
def meshPropagating : MsgType → Bool
  | .sync => true
  | .play => true
  | .pause => true
  | .seek => true
  | .buffering => true
  | .media_source => true
  | _ => false

/-- `MeshNetwork.relayMessage`: send the unmodified message to every registry
peer except `excludeId` whose status is `connected` and whose connection is
not destroyed.  Returns the list of (target peer id, message) sends. -/
def relayMessage (peers : List Peer) (msg : WireMsg) (excludeId : String) :
    List (String × WireMsg) :=
  (peers.filter (fun p =>
      p.id ≠ excludeId ∧ p.status = PeerStatus.connected ∧ p.destroyed = false)).map
    (fun p => (p.id, msg))

/-- The relay decision of `MeshNetwork.handlePeerData`: a mesh-propagating
message is relayed with `excludeId = message.senderId`; other kinds are not
relayed by this branch. -/
def handlePeerDataRelay (peers : List Peer) (msg : WireMsg) :
    List (String × WireMsg) :=
  if meshPropagating msg.type then relayMessage peers msg msg.senderId else []

/-- A mesh node: its id and its local registry of peers. -/
structure MeshNode where
  id : String
  registry : List Peer
deriving DecidableEq

/-- One in-flight delivery: (target node id, message). -/
abbrev Delivery := String × WireMsg

/-- Deliver the head of the in-flight queue: the target node processes the
message with `handlePeerData`, whose relay step appends new deliveries to the
queue.  There is no deduplication anywhere in `handlePeerData`: every receipt
of a propagating message triggers a fresh relay. -/
def deliverOne (nodes : List MeshNode) : List Delivery → List Delivery
  | [] => []
  | (t, m) :: rest =>
    match nodes.find? (fun n => n.id = t) with
    | none => rest
    | some n => rest ++ handlePeerDataRelay n.registry m

/-- A connected, healthy registry entry. -/
def livePeer (id nickname : String) (conn : Nat) : Peer :=
  ⟨id, nickname, conn, PeerStatus.connected, 1, false⟩

/-- Node A of a fully-meshed three-peer room. -/
def nodeA : MeshNode := ⟨"A", [livePeer "B" "Bea" 1, livePeer "C" "Cal" 2]⟩

/-- Node B of a fully-meshed three-peer room. -/
def nodeB : MeshNode := ⟨"B", [livePeer "A" "Amy" 3, livePeer "C" "Cal" 4]⟩

/-- Node C of a fully-meshed three-peer room. -/
def nodeC : MeshNode := ⟨"C", [livePeer "A" "Amy" 5, livePeer "B" "Bea" 6]⟩

/-- The three-node full mesh. -/
def mesh3 : List MeshNode := [nodeA, nodeB, nodeC]

/-- A sync message originated by peer A. -/
def syncFromA : WireMsg := ⟨MsgType.sync, "A"⟩

/-- The in-flight queue right after A broadcast `syncFromA` to its two
connected peers. -/
def broadcastFromA : List Delivery := [("B", syncFromA), ("C", syncFromA)]

/-! ## Drift correction (SyncManager.applySync) -/

/-- `SyncManager.driftThreshold` (300 ms). -/
def driftThreshold : ℚ := 3 / 10

/-- `SyncManager.softCorrectionThreshold` (700 ms). -/
def softCorrectionThreshold : ℚ := 7 / 10

/-- `SyncManager.hardSeekThreshold` (2 s). -/
def hardSeekThreshold : ℚ := 2

/-- The follower action chosen by `applySync` once the drift is computed:
either no correction (playback rate reset to 1.0), a hard seek to the
expected position (rate reset to 1.0), or a playback-rate nudge of
`1.0 + adjustment` restored to 1.0 after `restoreAfterMs` milliseconds. -/
inductive SyncAction
  | noCorrection
  | hardSeek
  | rateNudge (adjustment : ℚ) (restoreAfterMs : ℕ)
deriving DecidableEq

/-- The decision chain of `SyncManager.applySync` on the computed drift
(`drift = currentTime - expectedPosition`; the code binds `absDrift`):
`absDrift < 0.3` → none; `absDrift > 2.0` → hard seek;
`absDrift > 0.7` → faster nudge (∓0.08, restored after 1500 ms);
otherwise gentle nudge (∓0.03, restored after 1000 ms). -/
def driftAction (drift : ℚ) : SyncAction :=
  if |drift| < driftThreshold then SyncAction.noCorrection
  else if hardSeekThreshold < |drift| then SyncAction.hardSeek
  else if softCorrectionThreshold < |drift| then
    SyncAction.rateNudge (if 0 < drift then -(8 / 100) else 8 / 100) 1500
  else
    SyncAction.rateNudge (if 0 < drift then -(3 / 100) else 3 / 100) 1000

/-- Modelled from the claim's words, not from the source: |drift| < 0.3s no
action; 0.3s ≤ |drift| < 0.7s ±3% nudge restored after about 1s;
0.7s ≤ |drift| < 2s ±8% nudge restored after about 1.5s; |drift| ≥ 2s hard
seek.  Used only to compare the claimed thresholds with `driftAction`. -/
def claimedDriftAction (drift : ℚ) : SyncAction :=
  if |drift| < 3 / 10 then SyncAction.noCorrection
  else if |drift| < 7 / 10 then
    SyncAction.rateNudge (if 0 < drift then -(3 / 100) else 3 / 100) 1000
  else if |drift| < 2 then
    SyncAction.rateNudge (if 0 < drift then -(8 / 100) else 8 / 100) 1500
  else SyncAction.hardSeek

/-- The amended three-tier policy actually implemented: no action for
|drift| < 0.3; ±3% nudge for 0.3 ≤ |drift| ≤ 0.7; ±8% nudge for
0.7 < |drift| ≤ 2; hard seek for |drift| > 2. -/
def amendedDriftAction (drift : ℚ) : SyncAction :=
  if |drift| < 3 / 10 then SyncAction.noCorrection
  else if |drift| ≤ 7 / 10 then
    SyncAction.rateNudge (if 0 < drift then -(3 / 100) else 3 / 100) 1000
  else if |drift| ≤ 2 then
    SyncAction.rateNudge (if 0 < drift then -(8 / 100) else 8 / 100) 1500
  else SyncAction.hardSeek

/-! ## MediaController data model (sync/mediaController.ts) -/

/-- The two media kinds of `MediaState.type` ('local' | 'torrent'; the field
is renamed `kind` here because `local` is reserved in Lean). -/
inductive MediaKind
  | localFile
  | torrent
deriving DecidableEq

/-- `MediaState` of mediaController.ts.  Possibly-null/undefined fields are
`Option`s. -/
structure MediaState where
  kind : MediaKind
  filename : Option String
  fileSize : Option Nat
  magnetUri : Option String
  fileIndex : Option Nat
  loadedBy : String
  loadedByName : Option String
deriving DecidableEq

/-- `FileUploadStatus` of mediaController.ts. -/
structure FileUploadStatus where
  peerId : String
  nickname : String
  hasFile : Bool
  filename : Option String
  fileSize : Option Nat
deriving DecidableEq

/-- `VoteRequest` of mediaController.ts.  `startTime` and the timeout handle
are omitted: the deadline firing is an explicit event of the step relation.
`votes` is the `Map<peerId, boolean>` as an insertion-ordered association
list; values are `Option Bool` because the handler stores the raw
(possibly undefined) `message.vote`. -/
structure VoteRequest where
  requestId : Option String
  mediaKind : MediaKind
  filename : Option String
  fileSize : Option Nat
  magnetUri : Option String
  fileIndex : Option Nat
  requestedBy : String
  requestedByName : Option String
  votes : List (String × Option Bool)
deriving DecidableEq

/-- The fields of an incoming coordination message (`message: any` in the
handlers). -/
structure CtrlMsg where
  mediaKind : MediaKind
  filename : Option String
  fileSize : Option Nat
  magnetUri : Option String
  fileIndex : Option Nat
  loadedByName : Option String
  uploadedByName : Option String
  requestId : Option String
  requestedByName : Option String
  vote : Option Bool
deriving DecidableEq

/-- The network facts `MediaController` queries: `getLocalId`,
`getLocalNickname`, and `getConnectedPeers` (as (id, nickname) pairs). -/
structure NetCtx where
  localId : String
  localNickname : String
  connectedPeers : List (String × String)
deriving DecidableEq

/-- Observable effects of the controller: UI callbacks, the mismatch warning,
and outgoing broadcasts (by message type tag). -/
inductive CEvent
  | mediaReady
  | waitingForFiles (statuses : List FileUploadStatus)
  | voteRequestShown (requestId : Option String)
  | voteUpdate (yesCount noCount total : ℕ)
  | voteResult (accepted : Bool)
  | mediaChange (oldMedia newMedia : MediaState)
  | warnFileMismatch (uploadedByName : Option String)
  | sendBroadcast (tag : String)
deriving DecidableEq

/-- The mutable state of a `MediaController` instance. -/
structure ControllerState where
  currentMedia : Option MediaState
  pendingFileUploads : List (String × FileUploadStatus)
  activeVoteRequest : Option VoteRequest
deriving DecidableEq

/-- The initial controller state. -/
def ctrlInit : ControllerState := ⟨none, [], none⟩

/-- JavaScript truthiness of the stored vote value, as used by
`votes.filter((v) => v)`. -/
def truthy : Option Bool → Bool
  | some true => true
  | _ => false

/-- `yesCount`: votes whose stored value is truthy. -/
def yesCountOf (votes : List (String × Option Bool)) : ℕ :=
  (votes.map Prod.snd).countP truthy

/-- `noCount`: votes whose stored value is falsy (`filter((v) => !v)`). -/
def noCountOf (votes : List (String × Option Bool)) : ℕ :=
  (votes.map Prod.snd).countP (fun v => !truthy v)

/-- `MediaController.updateVoteCount`: the onVoteUpdate callback with the
current tallies and `connectedPeers + 1` as the total. -/
def voteUpdateEvents (ctx : NetCtx) (s : ControllerState) : List CEvent :=
  match s.activeVoteRequest with
  | none => []
  | some r =>
    [CEvent.voteUpdate (yesCountOf r.votes) (noCountOf r.votes)
      (ctx.connectedPeers.length + 1)]

/-- `MediaController.updateFileCoordinationStatus`: the onWaitingForFiles
callback with the live status list. -/
def waitingEvents (s : ControllerState) : List CEvent :=
  [CEvent.waitingForFiles (s.pendingFileUploads.map Prod.snd)]

/-- `MediaController.checkAllFilesReady`: fire onMediaReady when every
tracked peer has the file. -/
def checkAllFilesReadyEvents (s : ControllerState) : List CEvent :=
  if (s.pendingFileUploads.map Prod.snd).all (fun st => st.hasFile) then
    [CEvent.mediaReady]
  else []

/-- `MediaController.initializeFileCoordination` (shortened name): clear the
upload map, mark self as already having the file (with the current media's
filename and size), then add every currently connected peer as pending. -/
def initFileCoordination (ctx : NetCtx) (m : MediaState) :
    List (String × FileUploadStatus) :=
  ctx.connectedPeers.foldl
    (fun acc pr => mapSet pr.1 ⟨pr.1, pr.2, false, none, none⟩ acc)
    (mapSet ctx.localId
      ⟨ctx.localId, ctx.localNickname, true, m.filename, m.fileSize⟩ [])

/-- JavaScript `a || b` on an optional string (empty string is falsy). -/
def jsOrElse (o : Option String) (d : String) : String :=
  match o with
  | none => d
  | some s => if s = "" then d else s

/-- `MediaController.handleMediaLoaded`. -/
def handleMediaLoaded (ctx : NetCtx) (msg : CtrlMsg) (senderId : String)
    (s : ControllerState) : ControllerState × List CEvent :=
  if s.currentMedia.isSome then (s, [])
  else
    let m : MediaState :=
      ⟨msg.mediaKind, msg.filename, msg.fileSize, msg.magnetUri, msg.fileIndex,
        senderId, some (jsOrElse msg.loadedByName "Unknown")⟩
    if msg.mediaKind = MediaKind.localFile then
      let s1 : ControllerState := ⟨some m, initFileCoordination ctx m, s.activeVoteRequest⟩
      (s1, waitingEvents s1)
    else
      (⟨some m, s.pendingFileUploads, s.activeVoteRequest⟩, [CEvent.mediaReady])

/-- `MediaController.handleFileUploaded`. -/
def handleFileUploaded (msg : CtrlMsg) (senderId : String)
    (s : ControllerState) : ControllerState × List CEvent :=
  match s.currentMedia with
  | none => (s, [])
  | some m =>
    if m.kind ≠ MediaKind.localFile then (s, [])
    else if msg.filename ≠ m.filename ∨ msg.fileSize ≠ m.fileSize then
      (s, [CEvent.warnFileMismatch msg.uploadedByName])
    else
      let pfu :=
        match mapGet senderId s.pendingFileUploads with
        | none => s.pendingFileUploads
        | some st =>
          mapSet senderId
            { st with hasFile := true, filename := msg.filename, fileSize := msg.fileSize }
            s.pendingFileUploads
      let s1 : ControllerState := ⟨s.currentMedia, pfu, s.activeVoteRequest⟩
      (s1, checkAllFilesReadyEvents s1 ++ waitingEvents s1)

/-- `MediaController.requestMediaChange`: create the vote request (with the
freshly generated `requestId` passed in), auto-vote yes for self, broadcast
the change request, and emit the vote-count update.  As in the source, any
previously active request is overwritten without being finalized. -/
def requestMediaChange (ctx : NetCtx) (requestId : String)
    (mediaKind : MediaKind) (filename : String) (fileSize : Option Nat)
    (magnetUri : Option String) (fileIndex : Option Nat)
    (s : ControllerState) : ControllerState × List CEvent :=
  let r : VoteRequest :=
    ⟨some requestId, mediaKind, some filename, fileSize, magnetUri, fileIndex,
      ctx.localId, some ctx.localNickname, mapSet ctx.localId (some true) []⟩
  let s1 : ControllerState := ⟨s.currentMedia, s.pendingFileUploads, some r⟩
  (s1, [CEvent.sendBroadcast "media_change_request"] ++ voteUpdateEvents ctx s1)

/-- `MediaController.loadLocalFile`. -/
def loadLocalFile (ctx : NetCtx) (requestId : String) (filename : String)
    (fileSize : Nat) (s : ControllerState) : ControllerState × List CEvent :=
  if s.currentMedia.isSome then
    requestMediaChange ctx requestId MediaKind.localFile filename
      (some fileSize) none none s
  else
    let m : MediaState :=
      ⟨MediaKind.localFile, some filename, some fileSize, none, none,
        ctx.localId, some ctx.localNickname⟩
    let s1 : ControllerState := ⟨some m, initFileCoordination ctx m, s.activeVoteRequest⟩
    (s1, [CEvent.sendBroadcast "media_loaded"] ++ waitingEvents s1)

/-- `MediaController.loadTorrent`. -/
def loadTorrent (ctx : NetCtx) (requestId : String) (magnetUri : String)
    (filename : String) (fileSize : Nat) (fileIndex : Option Nat)
    (s : ControllerState) : ControllerState × List CEvent :=
  if s.currentMedia.isSome then
    requestMediaChange ctx requestId MediaKind.torrent filename
      (some fileSize) (some magnetUri) fileIndex s
  else
    let m : MediaState :=
      ⟨MediaKind.torrent, some filename, some fileSize, some magnetUri,
        fileIndex, ctx.localId, some ctx.localNickname⟩
    (⟨some m, s.pendingFileUploads, s.activeVoteRequest⟩,
      [CEvent.sendBroadcast "media_loaded", CEvent.mediaReady])

/-- `MediaController.handleMediaChangeRequest`: ignored entirely when a vote
is already active; otherwise mirror the request (no auto-vote) and surface it
to the UI. -/
def handleMediaChangeRequest (msg : CtrlMsg) (senderId : String)
    (s : ControllerState) : ControllerState × List CEvent :=
  if s.activeVoteRequest.isSome then (s, [])
  else
    let r : VoteRequest :=
      ⟨msg.requestId, msg.mediaKind, msg.filename, msg.fileSize, msg.magnetUri,
        msg.fileIndex, senderId, msg.requestedByName, []⟩
    (⟨s.currentMedia, s.pendingFileUploads, some r⟩,
      [CEvent.voteRequestShown msg.requestId])

/-- `MediaController.finalizeVote`: tally the cast votes, accept iff
`yesCount > noCount`, apply the media change on accept, and clear the active
request. -/
def finalizeVote (ctx : NetCtx) (s : ControllerState) :
    ControllerState × List CEvent :=
  match s.activeVoteRequest with
  | none => (s, [])
  | some r =>
    let accepted : Bool := decide (noCountOf r.votes < yesCountOf r.votes)
    let resultEvents := [CEvent.voteResult accepted]
    if accepted then
      let newMedia : MediaState :=
        ⟨r.mediaKind, r.filename, r.fileSize, r.magnetUri, r.fileIndex,
          r.requestedBy, r.requestedByName⟩
      let changeEvents :=
        match s.currentMedia with
        | some oldMedia => [CEvent.mediaChange oldMedia newMedia]
        | none => []
      if r.mediaKind = MediaKind.localFile then
        let s1 : ControllerState :=
          ⟨some newMedia, initFileCoordination ctx newMedia, none⟩
        (s1, resultEvents ++ changeEvents ++ waitingEvents s1)
      else
        (⟨some newMedia, s.pendingFileUploads, none⟩,
          resultEvents ++ changeEvents ++ [CEvent.mediaReady])
    else
      (⟨s.currentMedia, s.pendingFileUploads, none⟩, resultEvents)

/-- `MediaController.handleVoteResponse`: record the vote keyed by the
sender id (overwriting any earlier vote from the same sender), emit the
count update, and finalize early once the recorded votes reach
`connectedPeers + 1`. -/
def handleVoteResponse (ctx : NetCtx) (msg : CtrlMsg) (senderId : String)
    (s : ControllerState) : ControllerState × List CEvent :=
  match s.activeVoteRequest with
  | none => (s, [])
  | some r =>
    if msg.requestId ≠ r.requestId then (s, [])
    else
      let r1 : VoteRequest := { r with votes := mapSet senderId msg.vote r.votes }
      let s1 : ControllerState := ⟨s.currentMedia, s.pendingFileUploads, some r1⟩
      let updateEvents := voteUpdateEvents ctx s1
      if ctx.connectedPeers.length + 1 ≤ r1.votes.length then
        let p := finalizeVote ctx s1
        (p.1, updateEvents ++ p.2)
      else (s1, updateEvents)

/-- `MediaController.submitVote`. -/
def submitVote (ctx : NetCtx) (accept : Bool) (s : ControllerState) :
    ControllerState × List CEvent :=
  match s.activeVoteRequest with
  | none => (s, [])
  | some r =>
    let r1 : VoteRequest := { r with votes := mapSet ctx.localId (some accept) r.votes }
    let s1 : ControllerState := ⟨s.currentMedia, s.pendingFileUploads, some r1⟩
    let ev := [CEvent.sendBroadcast "vote_response"] ++ voteUpdateEvents ctx s1
    if ctx.connectedPeers.length + 1 ≤ r1.votes.length then
      let p := finalizeVote ctx s1
      (p.1, ev ++ p.2)
    else (s1, ev)

/-- The inputs that drive a `MediaController`: incoming coordination
messages, the active vote's 30 s deadline firing, and the local UI
operations. -/
inductive CtrlEvent
  | msgMediaLoaded (msg : CtrlMsg) (senderId : String)
  | msgFileUploaded (msg : CtrlMsg) (senderId : String)
  | msgMediaChangeRequest (msg : CtrlMsg) (senderId : String)
  | msgVoteResponse (msg : CtrlMsg) (senderId : String)
  | voteTimerFire
  | uiLoadLocalFile (requestId filename : String) (fileSize : Nat)
  | uiLoadTorrent (requestId magnetUri filename : String) (fileSize : Nat)
      (fileIndex : Option Nat)
  | uiSubmitVote (accept : Bool)
deriving DecidableEq

/-- One controller step: dispatch an input to its handler. -/
def ctrlStep (ctx : NetCtx) (e : CtrlEvent) (s : ControllerState) :
    ControllerState × List CEvent :=
  match e with
  | .msgMediaLoaded msg senderId => handleMediaLoaded ctx msg senderId s
  | .msgFileUploaded msg senderId => handleFileUploaded msg senderId s
  | .msgMediaChangeRequest msg senderId => handleMediaChangeRequest msg senderId s
  | .msgVoteResponse msg senderId => handleVoteResponse ctx msg senderId s
  | .voteTimerFire => finalizeVote ctx s
  | .uiLoadLocalFile requestId filename fileSize =>
      loadLocalFile ctx requestId filename fileSize s
  | .uiLoadTorrent requestId magnetUri filename fileSize fileIndex =>
      loadTorrent ctx requestId magnetUri filename fileSize fileIndex s
  | .uiSubmitVote accept => submitVote ctx accept s

/-- Run a sequence of controller inputs, accumulating the emitted events. -/
def ctrlRun (ctx : NetCtx) (s : ControllerState) :
    List CtrlEvent → ControllerState × List CEvent
  | [] => (s, [])
  | e :: es =>
    let p1 := ctrlStep ctx e s
    let p2 := ctrlRun ctx p1.1 es
    (p2.1, p1.2 ++ p2.2)

/-! ## Mesh membership and the reconnection grace window -/

/-- `NetworkStatus` of meshNetwork.ts. -/
inductive NetworkStatus
  | disconnected
  | connecting
  | connected
  | reconnecting
  | error
deriving DecidableEq

/-- Observable effects of the mesh membership operations. -/
inductive MeshEvent
  | peerJoined (id nickname : String)
  | peerLeft (id nickname : String)
  | leaderChanged (id : String)
  | statusChanged (st : NetworkStatus)
  | broadcastLeaderElection (id : String)
deriving DecidableEq

/-- The membership-relevant state of a `MeshNetwork` instance: the peer
registry (`Map id → Peer`, unique ids, insertion order), the set of pending
reconnection grace timers (`reconnectTimeouts` keys), and the known leader. -/
structure MeshState where
  peers : List Peer
  graceTimers : List String
  leaderId : Option String
deriving DecidableEq

/-- Update the registry entry with the given id in place. -/
def updatePeer (peers : List Peer) (id : String) (f : Peer → Peer) : List Peer :=
  peers.map (fun p => if p.id = id then f p else p)

/-- `peers.delete(id)`. -/
def removePeer (peers : List Peer) (id : String) : List Peer :=
  peers.filter (fun p => p.id ≠ id)

/-- The stateful side of `MeshNetwork.electLeader`: recompute the winner; on
a change, record it, raise the leadership-changed event, and broadcast the
election result. -/
def electLeaderStep (localId : String) (localPriority : ℚ) (s : MeshState) :
    MeshState × List MeshEvent :=
  let newLeader := electLeader localId localPriority s.peers
  if s.leaderId = some newLeader then (s, [])
  else
    (⟨s.peers, s.graceTimers, some newLeader⟩,
      [MeshEvent.leaderChanged newLeader,
        MeshEvent.broadcastLeaderElection newLeader])

/-- `MeshNetwork.handlePeerDisconnect`: look up the record by connection
identity; keep it with status `reconnecting`, start the 30 s grace timer, and
report a reconnecting network status.  (The per-peer ping interval is not
modelled.) -/
def handlePeerDisconnect (conn : Nat) (s : MeshState) :
    MeshState × List MeshEvent :=
  match s.peers.find? (fun p => p.conn = conn) with
  | none => (s, [])
  | some p =>
    let peers1 := updatePeer s.peers p.id
      (fun q => { q with status := PeerStatus.reconnecting })
    let timers1 := if p.id ∈ s.graceTimers then s.graceTimers
      else s.graceTimers ++ [p.id]
    (⟨peers1, timers1, s.leaderId⟩, [MeshEvent.statusChanged NetworkStatus.reconnecting])

/-- The grace timer for `peerId` firing.  A pending timer is consumed by
firing; the body removes the peer and raises exactly one peer-left event only
if the record still exists with status `reconnecting`, and re-runs the
election if the removed peer was the leader. -/
def graceTimerFire (localId : String) (localPriority : ℚ) (peerId : String)
    (s : MeshState) : MeshState × List MeshEvent :=
  if peerId ∈ s.graceTimers then
    let timers1 := s.graceTimers.filter (fun t => t ≠ peerId)
    match s.peers.find? (fun p => p.id = peerId) with
    | some p =>
      if p.status = PeerStatus.reconnecting then
        let s1 : MeshState := ⟨removePeer s.peers peerId, timers1, s.leaderId⟩
        if s.leaderId = some peerId then
          let p2 := electLeaderStep localId localPriority s1
          (p2.1, [MeshEvent.peerLeft peerId p.nickname] ++ p2.2)
        else (s1, [MeshEvent.peerLeft peerId p.nickname])
      else (⟨s.peers, timers1, s.leaderId⟩, [])
    | none => (⟨s.peers, timers1, s.leaderId⟩, [])
  else (s, [])

/-- `MeshNetwork.registerPeer` (pending-connection bookkeeping and ping
startup omitted): a fresh handshake for an already-known peer id restores the
record to `connected` with the new connection and returns without any event —
in particular the grace timer is not cancelled, but its body will find the
status `connected` and do nothing.  An unknown id appends a new record,
raises peer-joined, and runs the election. -/
def registerPeer (localId : String) (localPriority : ℚ) (conn : Nat)
    (peerId nickname : String) (priority : ℚ) (s : MeshState) :
    MeshState × List MeshEvent :=
  match s.peers.find? (fun p => p.id = peerId) with
  | some _ =>
    let peers1 := updatePeer s.peers peerId
      (fun q => { q with conn := conn, status := PeerStatus.connected })
    (⟨peers1, s.graceTimers, s.leaderId⟩, [])
  | none =>
    let p : Peer := ⟨peerId, nickname, conn, PeerStatus.connected, priority, false⟩
    let s1 : MeshState := ⟨s.peers ++ [p], s.graceTimers, s.leaderId⟩
    let p2 := electLeaderStep localId localPriority s1
    (p2.1, [MeshEvent.peerJoined peerId nickname] ++ p2.2)

/-! ## Concrete instances used by the example runs and witnesses -/

/-- Connected peer with id "a" and priority 5 (tied with "c"). -/
def cexPeerA : Peer := ⟨"a", "Ann", 1, PeerStatus.connected, 5, false⟩

/-- Connected peer with id "c" and priority 5 (tied with "a"). -/
def cexPeerC : Peer := ⟨"c", "Cay", 2, PeerStatus.connected, 5, false⟩

/-- Connected peer with id "d" and distinct priority 4. -/
def cexPeerD : Peer := ⟨"d", "Dee", 3, PeerStatus.connected, 4, false⟩

/-- Local node "A" with two connected peers. -/
def ctx3 : NetCtx := ⟨"A", "Amy", [("B", "Bea"), ("C", "Cal")]⟩

/-- Local node "A" with four connected peers (a room of five). -/
def ctx5 : NetCtx :=
  ⟨"A", "Amy", [("B", "Bea"), ("C", "Cal"), ("D", "Dot"), ("E", "Eve")]⟩

/-- Local node "A" with five connected peers (a room of six). -/
def ctx6 : NetCtx :=
  ⟨"A", "Amy", [("B", "Bea"), ("C", "Cal"), ("D", "Dot"), ("E", "Eve"), ("F", "Fay")]⟩

/-- The local file "movie.mp4" of 1,000,000 bytes loaded by peer A. -/
def mediaMovie : MediaState :=
  ⟨MediaKind.localFile, some "movie.mp4", some 1000000, none, none, "A", some "Amy"⟩

/-- A torrent-change vote request proposed by peer B, with the given votes. -/
def voteReqWith (votes : List (String × Option Bool)) : VoteRequest :=
  ⟨some "vote_1", MediaKind.torrent, some "show.mkv", some 2000, some "magnet:x",
    none, "B", some "Bea", votes⟩

/-- Three yes votes and three no votes. -/
def votes33 : List (String × Option Bool) :=
  [("A", some true), ("B", some true), ("C", some true),
    ("D", some false), ("E", some false), ("F", some false)]

/-- Four yes votes and two no votes. -/
def votes42 : List (String × Option Bool) :=
  [("A", some true), ("B", some true), ("C", some true),
    ("D", some true), ("E", some false), ("F", some false)]

/-- Two yes votes and one no vote (two connected peers never voted). -/
def votes21 : List (String × Option Bool) :=
  [("A", some true), ("B", some true), ("C", some false)]

/-- Media set, all six participants voted 3–3. -/
def stateVote33 : ControllerState := ⟨some mediaMovie, [], some (voteReqWith votes33)⟩

/-- Media set, all six participants voted 4–2. -/
def stateVote42 : ControllerState := ⟨some mediaMovie, [], some (voteReqWith votes42)⟩

/-- Media set, three of five participants voted 2–1; the deadline will fire. -/
def stateVote21 : ControllerState := ⟨some mediaMovie, [], some (voteReqWith votes21)⟩

/-- Two yes votes; the third participant has not voted yet. -/
def votesAB : List (String × Option Bool) := [("A", some true), ("B", some true)]

/-- Media set, two of three participants voted; C's vote will be the last. -/
def stateVoteAB : ControllerState := ⟨some mediaMovie, [], some (voteReqWith votesAB)⟩

/-- A vote request with a single recorded vote. -/
def voteReq1 : VoteRequest := voteReqWith [("B", some true)]

/-- Media set and a vote on `voteReq1` in progress. -/
def stateActiveVote : ControllerState := ⟨some mediaMovie, [], some voteReq1⟩

/-- A matching file-upload confirmation from the named peer. -/
def uploadMsg (who : String) : CtrlMsg :=
  ⟨MediaKind.localFile, some "movie.mp4", some 1000000, none, none, none,
    some who, none, none, none⟩

/-- A confirmation with the right filename but the wrong byte size. -/
def uploadMsgWrongSize : CtrlMsg :=
  ⟨MediaKind.localFile, some "movie.mp4", some 999999, none, none, none,
    some "Bea", none, none, none⟩

/-- Controller state after A loaded "movie.mp4" in the three-peer room. -/
def stateMovie : ControllerState :=
  ⟨some mediaMovie, initFileCoordination ctx3 mediaMovie, none⟩

/-- A loads the local file "movie.mp4". -/
def evLoadMovie : CtrlEvent := CtrlEvent.uiLoadLocalFile "vote_0" "movie.mp4" 1000000

/-- B's matching upload confirmation arrives. -/
def evUploadB : CtrlEvent := CtrlEvent.msgFileUploaded (uploadMsg "Bea") "B"

/-- C's matching upload confirmation arrives. -/
def evUploadC : CtrlEvent := CtrlEvent.msgFileUploaded (uploadMsg "Cal") "C"

/-- A vote_response from peer C on request "vote_1" with the given vote. -/
def voteMsgC (v : Bool) : CtrlMsg :=
  ⟨MediaKind.torrent, none, none, none, none, none, none, some "vote_1", none, some v⟩

/-- Registry peer "B" over connection 7 for the reconnection witness. -/
def meshPeerB : Peer := ⟨"B", "Bea", 7, PeerStatus.connected, 5, false⟩

/-- Mesh state of local node "A": one connected peer "B" who is the leader. -/
def meshS0 : MeshState := ⟨[meshPeerB], [], some "B"⟩

/-- Recognizer for peer-left events. -/
def isPeerLeft : MeshEvent → Bool
  | .peerLeft _ _ => true
  | _ => false

/-- Recognizer for vote-result events. -/
def isVoteResult : CEvent → Bool
  | .voteResult _ => true
  | _ => false

/-! ## Helper lemmas -/

theorem pickFirstMax_mem (best : Candidate) (cs : List Candidate) :
    pickFirstMax best cs ∈ best :: cs := by
  induction cs generalizing best with
  | nil => simp [pickFirstMax]
  | cons c cs ih =>
    simp only [pickFirstMax]
    by_cases h : best.priority < c.priority
    · simp only [h, if_true]
      have := ih c
      rcases List.mem_cons.mp this with h' | h'
      · simp [h']
      · simp [h']
    · simp only [h, if_false]
      have := ih best
      rcases List.mem_cons.mp this with h' | h'
      · simp [h']
      · simp [h']

theorem pickFirstMax_le (best : Candidate) (cs : List Candidate) :
    ∀ c ∈ best :: cs, c.priority ≤ (pickFirstMax best cs).priority := by
  induction cs generalizing best with
  | nil =>
    intro c hc
    simp only [List.mem_cons, List.not_mem_nil, or_false] at hc
    subst hc
    simp [pickFirstMax]
  | cons c cs ih =>
    intro d hd
    have hb : best.priority ≤ (if best.priority < c.priority then c else best).priority := by
      by_cases h : best.priority < c.priority
      · rw [if_pos h]; exact le_of_lt h
      · rw [if_neg h]
    have hc2 : c.priority ≤ (if best.priority < c.priority then c else best).priority := by
      by_cases h : best.priority < c.priority
      · rw [if_pos h]
      · rw [if_neg h]; exact le_of_not_lt h
    have hhead : (if best.priority < c.priority then c else best).priority ≤
        (pickFirstMax (if best.priority < c.priority then c else best) cs).priority :=
      ih _ _ (List.mem_cons_self _ _)
    show d.priority ≤
      (pickFirstMax (if best.priority < c.priority then c else best) cs).priority
    rcases List.mem_cons.mp hd with h1 | h1
    · subst h1; exact le_trans hb hhead
    · rcases List.mem_cons.mp h1 with h2 | h2
      · subst h2; exact le_trans hc2 hhead
      · exact ih _ d (List.mem_cons_of_mem _ h2)

/-! ## C1: leader election -/

/-- C1 (counterexample): with tied priorities the computed leader depends on
the registration order of the peers.  With local candidate ("b", 3) and the
two connected peers ("a", 5) and ("c", 5), registering "a" first elects "a"
while registering "c" first elects "c", although both registries are
permutations of each other — so the election is not invariant under
reordering of join events and ties are not broken by id ordering. -/
theorem electLeader_order_dependent_cex :
    electLeader "b" 3 [cexPeerA, cexPeerC] = "a" ∧
    electLeader "b" 3 [cexPeerC, cexPeerA] = "c" ∧
    [cexPeerA, cexPeerC].Perm [cexPeerC, cexPeerA] ∧
    electLeader "b" 3 [cexPeerA, cexPeerC] ≠
      electLeader "b" 3 [cexPeerC, cexPeerA] :=
  ⟨by decide, by decide, by decide, by decide⟩

/-- C1 (amended): the elected leader is always a candidate of maximal
priority among the local peer and all connected peers; and when the candidate
priorities are pairwise distinct the election is invariant under any
reordering of the peer registry.  Ties, however, are broken by candidate list
order (local candidate first, then registration order) because the stable
sort has no id tie-break, so under tied priorities the winner can depend on
arrival order. -/
theorem electLeader_max_priority_and_distinct_invariant
    (localId : String) (localPriority : ℚ) (l1 l2 : List Peer) :
    (∃ c ∈ candidatesOf localId localPriority l1,
        c.id = electLeader localId localPriority l1 ∧
        ∀ d ∈ candidatesOf localId localPriority l1, d.priority ≤ c.priority) ∧
    (l1.Perm l2 →
      ((candidatesOf localId localPriority l1).map Candidate.priority).Nodup →
      electLeader localId localPriority l1 = electLeader localId localPriority l2) := by
  have hcand1 : candidatesOf localId localPriority l1 =
      (⟨localId, localPriority⟩ : Candidate) ::
        (l1.filter (fun p => p.status = PeerStatus.connected)).map
          (fun p => (⟨p.id, p.priority⟩ : Candidate)) := rfl
  have hE1 : electLeader localId localPriority l1 =
      (pickFirstMax (⟨localId, localPriority⟩ : Candidate)
        ((l1.filter (fun p => p.status = PeerStatus.connected)).map
          (fun p => (⟨p.id, p.priority⟩ : Candidate)))).id := rfl
  have hE2 : electLeader localId localPriority l2 =
      (pickFirstMax (⟨localId, localPriority⟩ : Candidate)
        ((l2.filter (fun p => p.status = PeerStatus.connected)).map
          (fun p => (⟨p.id, p.priority⟩ : Candidate)))).id := rfl
  constructor
  · refine ⟨pickFirstMax (⟨localId, localPriority⟩ : Candidate)
      ((l1.filter (fun p => p.status = PeerStatus.connected)).map
        (fun p => (⟨p.id, p.priority⟩ : Candidate))), ?_, hE1.symm, ?_⟩
    · rw [hcand1]
      exact pickFirstMax_mem _ _
    · intro d hd
      rw [hcand1] at hd
      exact pickFirstMax_le _ _ d hd
  · intro hperm hnodup
    have ht :
        ((l1.filter (fun p => p.status = PeerStatus.connected)).map
          (fun p => (⟨p.id, p.priority⟩ : Candidate))).Perm
        ((l2.filter (fun p => p.status = PeerStatus.connected)).map
          (fun p => (⟨p.id, p.priority⟩ : Candidate))) :=
      (hperm.filter _).map _
    have candPerm :
        (candidatesOf localId localPriority l1).Perm
          (candidatesOf localId localPriority l2) := ht.cons _
    have mem1 : pickFirstMax (⟨localId, localPriority⟩ : Candidate)
        ((l1.filter (fun p => p.status = PeerStatus.connected)).map
          (fun p => (⟨p.id, p.priority⟩ : Candidate))) ∈
        candidatesOf localId localPriority l1 := pickFirstMax_mem _ _
    have mem2 : pickFirstMax (⟨localId, localPriority⟩ : Candidate)
        ((l2.filter (fun p => p.status = PeerStatus.connected)).map
          (fun p => (⟨p.id, p.priority⟩ : Candidate))) ∈
        candidatesOf localId localPriority l2 := pickFirstMax_mem _ _
    have mem2' := candPerm.symm.subset mem2
    have mem1' := candPerm.subset mem1
    have le12 := pickFirstMax_le (⟨localId, localPriority⟩ : Candidate)
      ((l1.filter (fun p => p.status = PeerStatus.connected)).map
        (fun p => (⟨p.id, p.priority⟩ : Candidate))) _ mem2'
    have le21 := pickFirstMax_le (⟨localId, localPriority⟩ : Candidate)
      ((l2.filter (fun p => p.status = PeerStatus.connected)).map
        (fun p => (⟨p.id, p.priority⟩ : Candidate))) _ mem1'
    have heq := le_antisymm le21 le12
    have hsame := List.inj_on_of_nodup_map hnodup mem1 mem2' heq
    rw [hE1, hE2, hsame]

/-- C1 witness: the amended theorem applied to the registry orders
[("d", 4), ("a", 5)] and [("a", 5), ("d", 4)] under local candidate
("b", 3) — distinct priorities, so the leader agrees across the orders. -/
theorem electLeader_amended_witness :
    (∃ c ∈ candidatesOf "b" 3 [cexPeerD, cexPeerA],
        c.id = electLeader "b" 3 [cexPeerD, cexPeerA] ∧
        ∀ d ∈ candidatesOf "b" 3 [cexPeerD, cexPeerA], d.priority ≤ c.priority) ∧
    electLeader "b" 3 [cexPeerD, cexPeerA] = electLeader "b" 3 [cexPeerA, cexPeerD] :=
  ⟨(electLeader_max_priority_and_distinct_invariant "b" 3 [cexPeerD, cexPeerA]
      [cexPeerA, cexPeerD]).1,
    (electLeader_max_priority_and_distinct_invariant "b" 3 [cexPeerD, cexPeerA]
      [cexPeerA, cexPeerD]).2 (by decide) (by decide)⟩

/-! ## C2: relay has no deduplication, so it cycles forever in a mesh of three -/

theorem deliverOne_headB (rest : List Delivery) :
    deliverOne mesh3 (("B", syncFromA) :: rest) = rest ++ [("C", syncFromA)] := rfl

theorem deliverOne_headC (rest : List Delivery) :
    deliverOne mesh3 (("C", syncFromA) :: rest) = rest ++ [("B", syncFromA)] := rfl

theorem relayInv_step (q : List Delivery)
    (h : ∀ e ∈ q, e = ("B", syncFromA) ∨ e = ("C", syncFromA)) :
    (deliverOne mesh3 q).length = q.length ∧
    ∀ e ∈ deliverOne mesh3 q, e = ("B", syncFromA) ∨ e = ("C", syncFromA) := by
  match q with
  | [] => exact ⟨rfl, by intro e he; simp [deliverOne] at he⟩
  | d :: rest =>
    have hd := h d (List.mem_cons_self _ _)
    have hrest : ∀ e ∈ rest, e = ("B", syncFromA) ∨ e = ("C", syncFromA) :=
      fun e he => h e (List.mem_cons_of_mem _ he)
    rcases hd with h1 | h1
    · subst h1
      rw [deliverOne_headB]
      refine ⟨by simp, ?_⟩
      intro e he
      rcases List.mem_append.mp he with h2 | h2
      · exact hrest e h2
      · simp only [List.mem_singleton] at h2
        exact Or.inr h2
    · subst h1
      rw [deliverOne_headC]
      refine ⟨by simp, ?_⟩
      intro e he
      rcases List.mem_append.mp he with h2 | h2
      · exact hrest e h2
      · simp only [List.mem_singleton] at h2
        exact Or.inl h2

/-- C2: after peer A broadcasts one sync message in the fully-meshed
three-peer room, the in-flight relay queue keeps exactly two deliveries
forever — every receipt of the message by B or C triggers a fresh relay back
to the other (`handlePeerData` has no deduplication, only the senderId
exclusion), so relaying never quiesces: an infinite relay loop, contradicting
the claim that each receiving peer forwards a given message at most once. -/
theorem relay_cycle_never_quiesces (k : ℕ) :
    ((deliverOne mesh3)^[k] broadcastFromA).length = 2 := by
  have main : ∀ n : ℕ, ((deliverOne mesh3)^[n] broadcastFromA).length = 2 ∧
      ∀ e ∈ (deliverOne mesh3)^[n] broadcastFromA,
        e = ("B", syncFromA) ∨ e = ("C", syncFromA) := by
    intro n
    induction n with
    | zero =>
      refine ⟨rfl, ?_⟩
      intro e he
      simp only [Function.iterate_zero, id_eq, broadcastFromA, List.mem_cons,
        List.not_mem_nil, or_false] at he
      tauto
    | succ n ih =>
      rw [Function.iterate_succ_apply']
      have step := relayInv_step _ ih.2
      exact ⟨step.1.trans ih.1, step.2⟩
  exact (main k).1

/-! ## C4: drift-correction thresholds -/

/-- C4 (counterexample): at the exact boundaries the implemented decision
chain disagrees with the claimed thresholds.  At |drift| = 0.7 s the code
chooses the gentle ±3% nudge (the claim demands the ±8% tier, which it says
starts at 0.7 s inclusive), and at |drift| = 2 s the code chooses the ±8%
nudge (the claim demands a hard seek at 2 s inclusive).  The claim's
non-boundary examples (299 ms, 301 ms, 2001 ms) do hold. -/
theorem driftAction_boundary_cex :
    driftAction (7 / 10) = SyncAction.rateNudge (-(3 / 100)) 1000 ∧
    claimedDriftAction (7 / 10) = SyncAction.rateNudge (-(8 / 100)) 1500 ∧
    driftAction (7 / 10) ≠ claimedDriftAction (7 / 10) ∧
    driftAction 2 = SyncAction.rateNudge (-(8 / 100)) 1500 ∧
    claimedDriftAction 2 = SyncAction.hardSeek ∧
    driftAction 2 ≠ claimedDriftAction 2 ∧
    driftAction (299 / 1000) = SyncAction.noCorrection ∧
    driftAction (301 / 1000) = SyncAction.rateNudge (-(3 / 100)) 1000 ∧
    driftAction (2001 / 1000) = SyncAction.hardSeek := by
  have h710 : |(7 : ℚ) / 10| = 7 / 10 := abs_of_nonneg (by norm_num)
  have habs2 : |(2 : ℚ)| = 2 := abs_of_nonneg (by norm_num)
  have h299 : |(299 : ℚ) / 1000| = 299 / 1000 := abs_of_nonneg (by norm_num)
  have h301 : |(301 : ℚ) / 1000| = 301 / 1000 := abs_of_nonneg (by norm_num)
  have h2001 : |(2001 : ℚ) / 1000| = 2001 / 1000 := abs_of_nonneg (by norm_num)
  have e1 : driftAction (7 / 10) = SyncAction.rateNudge (-(3 / 100)) 1000 := by
    simp only [driftAction, driftThreshold, softCorrectionThreshold,
      hardSeekThreshold, h710]
    norm_num
  have e2 : claimedDriftAction (7 / 10) = SyncAction.rateNudge (-(8 / 100)) 1500 := by
    simp only [claimedDriftAction, h710]
    norm_num
  have e3 : driftAction 2 = SyncAction.rateNudge (-(8 / 100)) 1500 := by
    simp only [driftAction, driftThreshold, softCorrectionThreshold,
      hardSeekThreshold, habs2]
    norm_num
  have e4 : claimedDriftAction 2 = SyncAction.hardSeek := by
    simp only [claimedDriftAction, habs2]
    norm_num
  refine ⟨e1, e2, ?_, e3, e4, ?_, ?_, ?_, ?_⟩
  · rw [e1, e2]
    simp only [ne_eq, SyncAction.rateNudge.injEq, not_and]
    intro h
    norm_num
  · rw [e3, e4]
    simp
  · simp only [driftAction, driftThreshold, softCorrectionThreshold,
      hardSeekThreshold, h299]
    norm_num
  · simp only [driftAction, driftThreshold, softCorrectionThreshold,
      hardSeekThreshold, h301]
    norm_num
  · simp only [driftAction, driftThreshold, softCorrectionThreshold,
      hardSeekThreshold, h2001]
    norm_num

/-- C4 (amended): for every drift the action chosen by `applySync` matches
the three-tier policy with the boundaries as actually implemented: no action
and rate reset for |drift| < 0.3; ±3% nudge restored after about 1 s for
0.3 ≤ |drift| ≤ 0.7; ±8% nudge restored after about 1.5 s for
0.7 < |drift| ≤ 2; hard seek with rate reset for |drift| > 2. -/
theorem driftAction_amended (d : ℚ) : driftAction d = amendedDriftAction d := by
  simp only [driftAction, amendedDriftAction, driftThreshold,
    softCorrectionThreshold, hardSeekThreshold]
  split_ifs <;> first | rfl | (exfalso; linarith)

/-! ## C10: media_loaded is ignored entirely once media is set -/

/-- C10: when a current MediaState is already set, an incoming media_loaded
message leaves the controller state (current media, readiness map, active
vote request) exactly unchanged and emits no callback or broadcast — so two
peers that each loaded first keep their own locally-first-seen media. -/
theorem mediaLoaded_ignored_when_current (ctx : NetCtx) (msg : CtrlMsg)
    (senderId : String) (s : ControllerState) (m : MediaState)
    (hcur : s.currentMedia = some m) :
    handleMediaLoaded ctx msg senderId s = (s, []) := by
  unfold handleMediaLoaded
  rw [hcur]
  simp

/-- C10 witness: a media_loaded message from B is a no-op on the state where
A's "movie.mp4" is already current. -/
theorem mediaLoaded_ignored_witness :
    handleMediaLoaded ctx3 (uploadMsg "Bea") "B" stateMovie = (stateMovie, []) :=
  mediaLoaded_ignored_when_current ctx3 (uploadMsg "Bea") "B" stateMovie mediaMovie rfl

/-! ## C6: mismatched upload confirmations are rejected -/

/-- C6: while local-kind media is current, a file-uploaded confirmation whose
filename or byte size differs from the current media is rejected: the state
(including the entire readiness map) is unchanged and the only effect is the
mismatch warning log. -/
theorem fileUploaded_mismatch_rejected (msg : CtrlMsg) (senderId : String)
    (m : MediaState) (pfu : List (String × FileUploadStatus))
    (avr : Option VoteRequest)
    (hkind : m.kind = MediaKind.localFile)
    (hmismatch : msg.filename ≠ m.filename ∨ msg.fileSize ≠ m.fileSize) :
    handleFileUploaded msg senderId ⟨some m, pfu, avr⟩ =
      (⟨some m, pfu, avr⟩, [CEvent.warnFileMismatch msg.uploadedByName]) := by
  unfold handleFileUploaded
  dsimp only
  split_ifs with h1
  · exact absurd hkind h1
  · rfl

/-- C6 witness: with "movie.mp4"/1,000,000 current, a confirmation for
"movie.mp4" with 999,999 bytes leaves the readiness state untouched and only
logs the warning. -/
theorem fileUploaded_mismatch_witness :
    handleFileUploaded uploadMsgWrongSize "B"
        ⟨some mediaMovie, initFileCoordination ctx3 mediaMovie, none⟩ =
      (⟨some mediaMovie, initFileCoordination ctx3 mediaMovie, none⟩,
        [CEvent.warnFileMismatch (some "Bea")]) :=
  fileUploaded_mismatch_rejected uploadMsgWrongSize "B" mediaMovie
    (initFileCoordination ctx3 mediaMovie) none rfl (by decide)

/-! ## C7: when onMediaReady fires -/

/-- C7 (counterexample): in the three-peer room, after A loads "movie.mp4"
and B and C confirm matching files, onMediaReady has fired once — but a
duplicate of C's matching confirmation fires it a second time, because
`checkAllFilesReady` re-runs on every matching confirmation and has no
"already fired" latch.  This refutes the claim's "and never again for later
messages about the same media". -/
theorem mediaReady_refires_cex :
    ((ctrlRun ctx3 ctrlInit [evLoadMovie, evUploadB, evUploadC]).2.count
        CEvent.mediaReady = 1) ∧
    ((ctrlRun ctx3 ctrlInit [evLoadMovie, evUploadB, evUploadC, evUploadC]).2.count
        CEvent.mediaReady = 2) :=
  ⟨by decide, by decide⟩

/-- C7 (amended): in the nominal run where each remote peer sends exactly one
matching confirmation, onMediaReady fires exactly once, at the moment the
last tracked peer transitions to ready (in either arrival order); it does not
fire while any tracked peer is still pending.  (A duplicate confirmation
after completion would fire it again, see the counterexample.) -/
theorem mediaReady_fires_once_nominal :
    ((ctrlRun ctx3 ctrlInit [evLoadMovie, evUploadB]).2.count CEvent.mediaReady = 0) ∧
    ((ctrlRun ctx3 ctrlInit [evLoadMovie, evUploadC]).2.count CEvent.mediaReady = 0) ∧
    ((ctrlRun ctx3 ctrlInit [evLoadMovie, evUploadB, evUploadC]).2.count
        CEvent.mediaReady = 1) ∧
    ((ctrlRun ctx3 ctrlInit [evLoadMovie, evUploadC, evUploadB]).2.count
        CEvent.mediaReady = 1) :=
  ⟨by decide, by decide, by decide, by decide⟩

/-! ## C3: finalize decision rule -/

theorem finalizeVote_events (ctx : NetCtx) (s : ControllerState) (r : VoteRequest)
    (hact : s.activeVoteRequest = some r) :
    (finalizeVote ctx s).2.head? =
      some (CEvent.voteResult (decide (noCountOf r.votes < yesCountOf r.votes))) ∧
    (finalizeVote ctx s).1.activeVoteRequest = none := by
  obtain ⟨cm, pfu, avr⟩ := s
  have havr : avr = some r := hact
  subst havr
  by_cases h : noCountOf r.votes < yesCountOf r.votes
  · cases hk : r.mediaKind <;> cases cm <;>
      simp [finalizeVote, h, hk, waitingEvents]
  · simp [finalizeVote, h]

/-- C3: when a vote finalizes (deadline fired, or the last connected peer's
vote arrived), the proposal is accepted iff strictly more truthy votes than
falsy votes were actually recorded; ties and `no ≥ yes` reject; peers who
never voted are counted in neither tally.  Concretely: six participants
voting 3–3 finalize to rejected with the media untouched; 4–2 finalizes to
accepted; 2 yes / 1 no out of five connected participants with two
non-voters finalizes to accepted when the deadline fires (the counts over
the cast votes being 2 and 1); and the third of three participants casting
the final vote triggers exactly one finalize result. -/
theorem finalize_accepts_iff_strict_majority
    (ctx : NetCtx) (s : ControllerState) (r : VoteRequest)
    (hact : s.activeVoteRequest = some r) :
    ((finalizeVote ctx s).2.head? = some (CEvent.voteResult true) ↔
        noCountOf r.votes < yesCountOf r.votes) ∧
    ((finalizeVote ctx s).2.head? = some (CEvent.voteResult false) ↔
        yesCountOf r.votes ≤ noCountOf r.votes) ∧
    ((finalizeVote ctx s).1.activeVoteRequest = none) ∧
    ((ctrlStep ctx6 CtrlEvent.voteTimerFire stateVote33).2 =
        [CEvent.voteResult false]) ∧
    ((ctrlStep ctx6 CtrlEvent.voteTimerFire stateVote33).1.currentMedia =
        some mediaMovie) ∧
    ((ctrlStep ctx6 CtrlEvent.voteTimerFire stateVote42).2.head? =
        some (CEvent.voteResult true)) ∧
    ((ctrlStep ctx5 CtrlEvent.voteTimerFire stateVote21).2.head? =
        some (CEvent.voteResult true)) ∧
    (yesCountOf votes21 = 2 ∧ noCountOf votes21 = 1) ∧
    ((handleVoteResponse ctx3 (voteMsgC false) "C" stateVoteAB).2.countP
        isVoteResult = 1) := by
  have he := finalizeVote_events ctx s r hact
  refine ⟨?_, ?_, he.2, by decide, by decide, by decide, by decide,
    by decide, by decide⟩
  · rw [he.1]
    simp
  · rw [he.1]
    simp [not_lt]

/-- C3 witness: the decision rule applied to the concrete 4–2 vote state. -/
theorem finalize_strict_majority_witness :
    ((finalizeVote ctx6 stateVote42).2.head? = some (CEvent.voteResult true) ↔
        noCountOf (voteReqWith votes42).votes < yesCountOf (voteReqWith votes42).votes) ∧
    ((finalizeVote ctx6 stateVote42).2.head? = some (CEvent.voteResult false) ↔
        yesCountOf (voteReqWith votes42).votes ≤ noCountOf (voteReqWith votes42).votes) ∧
    ((finalizeVote ctx6 stateVote42).1.activeVoteRequest = none) ∧
    ((ctrlStep ctx6 CtrlEvent.voteTimerFire stateVote33).2 =
        [CEvent.voteResult false]) ∧
    ((ctrlStep ctx6 CtrlEvent.voteTimerFire stateVote33).1.currentMedia =
        some mediaMovie) ∧
    ((ctrlStep ctx6 CtrlEvent.voteTimerFire stateVote42).2.head? =
        some (CEvent.voteResult true)) ∧
    ((ctrlStep ctx5 CtrlEvent.voteTimerFire stateVote21).2.head? =
        some (CEvent.voteResult true)) ∧
    (yesCountOf votes21 = 2 ∧ noCountOf votes21 = 1) ∧
    ((handleVoteResponse ctx3 (voteMsgC false) "C" stateVoteAB).2.countP
        isVoteResult = 1) :=
  finalize_accepts_iff_strict_majority ctx6 stateVote42 (voteReqWith votes42) rfl

/-! ## Map-model lemmas -/

theorem mapSet_mapSet_same {β : Type} (k : String) (v1 v2 : β)
    (l : List (String × β)) :
    mapSet k v2 (mapSet k v1 l) = mapSet k v2 l := by
  induction l with
  | nil => simp [mapSet]
  | cons h t ih =>
    obtain ⟨k1, w⟩ := h
    by_cases hk : k1 = k
    · simp [mapSet, hk]
    · simp [mapSet, hk, ih]

theorem mapSet_length_indep {β : Type} (k : String) (v1 v2 : β)
    (l : List (String × β)) :
    (mapSet k v1 l).length = (mapSet k v2 l).length := by
  induction l with
  | nil => rfl
  | cons h t ih =>
    obtain ⟨k1, w⟩ := h
    by_cases hk : k1 = k <;> simp [mapSet, hk, ih]

theorem mapSet_keys_mem {β : Type} (k x : String) (v : β)
    (l : List (String × β))
    (hx : x ∈ (mapSet k v l).map Prod.fst) : x = k ∨ x ∈ l.map Prod.fst := by
  induction l with
  | nil =>
    simp only [mapSet, List.map_cons, List.map_nil, List.mem_singleton] at hx
    exact Or.inl hx
  | cons h t ih =>
    obtain ⟨k1, w⟩ := h
    by_cases hk : k1 = k
    · rw [show mapSet k v ((k1, w) :: t) = (k, v) :: t from by simp [mapSet, hk]]
        at hx
      rw [List.map_cons, List.mem_cons] at hx
      rcases hx with h1 | h1
      · exact Or.inl h1
      · right
        rw [List.map_cons, List.mem_cons]
        exact Or.inr h1
    · rw [show mapSet k v ((k1, w) :: t) = (k1, w) :: mapSet k v t from by
          simp [mapSet, hk]] at hx
      rw [List.map_cons, List.mem_cons] at hx
      rcases hx with h1 | h1
      · right
        rw [List.map_cons, List.mem_cons]
        exact Or.inl h1
      · rcases ih h1 with h2 | h2
        · exact Or.inl h2
        · right
          rw [List.map_cons, List.mem_cons]
          exact Or.inr h2

theorem mapSet_keys_nodup {β : Type} (k : String) (v : β)
    (l : List (String × β))
    (h : (l.map Prod.fst).Nodup) : ((mapSet k v l).map Prod.fst).Nodup := by
  induction l with
  | nil => simp [mapSet]
  | cons hd t ih =>
    obtain ⟨k1, w⟩ := hd
    rw [List.map_cons, List.nodup_cons] at h
    by_cases hk : k1 = k
    · rw [show mapSet k v ((k1, w) :: t) = (k, v) :: t from by simp [mapSet, hk]]
      rw [List.map_cons, List.nodup_cons]
      subst hk
      exact ⟨h.1, h.2⟩
    · rw [show mapSet k v ((k1, w) :: t) = (k1, w) :: mapSet k v t from by
          simp [mapSet, hk]]
      rw [List.map_cons, List.nodup_cons]
      refine ⟨?_, ih h.2⟩
      intro hmem
      rcases mapSet_keys_mem k k1 v t hmem with h1 | h1
      · exact hk h1
      · exact h.1 h1

/-! ## C8: vote-request lifecycle -/

/-- C8 (counterexample): with a vote on `voteReq1` active, the local user
loading another file (`loadLocalFile` → `requestMediaChange`) replaces the
active request with a brand-new one without finalizing it: the active request
changes, stays occupied, and no vote-result callback fires — the first
proposal did not win until resolution, and the request was destroyed outside
finalize. -/
theorem voteRequest_replaced_by_local_load_cex :
    ((ctrlStep ctx3 (CtrlEvent.uiLoadLocalFile "vote_2" "new.mp4" 500)
        stateActiveVote).1.activeVoteRequest ≠ some voteReq1) ∧
    (((ctrlStep ctx3 (CtrlEvent.uiLoadLocalFile "vote_2" "new.mp4" 500)
        stateActiveVote).1.activeVoteRequest).isSome = true) ∧
    ((ctrlStep ctx3 (CtrlEvent.uiLoadLocalFile "vote_2" "new.mp4" 500)
        stateActiveVote).2.countP isVoteResult = 0) :=
  ⟨by decide, by decide, by decide⟩

/-- C8 (amended): while a vote request `r` is active, an incoming
media_change_request message is ignored entirely (state unchanged, no event);
media_loaded and file_uploaded messages never touch the active request; the
deadline firing finalizes it (active request cleared); a vote_response or a
local submitVote destroys it only when the recorded votes reach
connectedPeers + 1, i.e. when all connected peers have voted.  A locally
initiated media load, however, replaces the active request without finalizing
it (see the counterexample). -/
theorem voteRequest_lifecycle_amended
    (ctx : NetCtx) (s : ControllerState) (r : VoteRequest)
    (hact : s.activeVoteRequest = some r) :
    (∀ msg senderId, handleMediaChangeRequest msg senderId s = (s, [])) ∧
    (∀ ctx2 msg senderId,
        (handleMediaLoaded ctx2 msg senderId s).1.activeVoteRequest = some r) ∧
    (∀ msg senderId,
        (handleFileUploaded msg senderId s).1.activeVoteRequest = some r) ∧
    ((finalizeVote ctx s).1.activeVoteRequest = none) ∧
    (∀ msg senderId,
        (handleVoteResponse ctx msg senderId s).1.activeVoteRequest = none →
          ctx.connectedPeers.length + 1 ≤ (mapSet senderId msg.vote r.votes).length) ∧
    (∀ accept : Bool,
        (submitVote ctx accept s).1.activeVoteRequest = none →
          ctx.connectedPeers.length + 1 ≤
            (mapSet ctx.localId (some accept) r.votes).length) := by
  obtain ⟨cm, pfu, avr⟩ := s
  have havr : avr = some r := hact
  subst havr
  refine ⟨?_, ?_, ?_, ?_, ?_, ?_⟩
  · intro msg senderId
    simp [handleMediaChangeRequest]
  · intro ctx2 msg senderId
    unfold handleMediaLoaded
    dsimp only
    split_ifs <;> rfl
  · intro msg senderId
    unfold handleFileUploaded
    cases cm with
    | none => rfl
    | some m =>
      dsimp only
      split_ifs <;> rfl
  · exact (finalizeVote_events ctx ⟨cm, pfu, some r⟩ r rfl).2
  · intro msg senderId
    unfold handleVoteResponse
    dsimp only
    split_ifs with h1 h2
    · intro hno
      exact absurd hno (by simp)
    · intro _
      exact h2
    · intro hno
      exact absurd hno (by simp)
  · intro accept
    unfold submitVote
    dsimp only
    split_ifs with h2
    · intro _
      exact h2
    · intro hno
      exact absurd hno (by simp)

/-- C8 witness: with the concrete active vote `voteReq1`, an incoming change
request is a no-op and the deadline firing clears the active request. -/
theorem voteRequest_lifecycle_witness :
    (handleMediaChangeRequest (uploadMsg "Cal") "C" stateActiveVote =
      (stateActiveVote, [])) ∧
    ((finalizeVote ctx3 stateActiveVote).1.activeVoteRequest = none) :=
  ⟨(voteRequest_lifecycle_amended ctx3 stateActiveVote voteReq1 rfl).1
      (uploadMsg "Cal") "C",
    (voteRequest_lifecycle_amended ctx3 stateActiveVote voteReq1 rfl).2.2.2.1⟩

/-! ## C9: vote recording is idempotent, keyed, and overwriting -/

/-- C9: vote recording is a map write keyed by the voter.  While a vote is
active and below the early-finalize threshold: delivering the same
vote_response twice leaves the controller state exactly as after one
delivery; the recorded votes after a delivery are
`mapSet senderId msg.vote r.votes`, whose keys stay duplicate-free (each peer
contributes at most one vote to the tallies); and a later vote from the same
sender overwrites the earlier one — the votes map after delivering `msg`
then `msg2` from the same sender equals the map with only `msg2`'s vote
recorded for that sender. -/
theorem voteResponse_idempotent_overwrite
    (ctx : NetCtx) (msg msg2 : CtrlMsg) (senderId : String)
    (s : ControllerState) (r : VoteRequest)
    (hact : s.activeVoteRequest = some r)
    (hreq : msg.requestId = r.requestId)
    (hreq2 : msg2.requestId = r.requestId)
    (hnodup : (r.votes.map Prod.fst).Nodup)
    (hlt : (mapSet senderId msg.vote r.votes).length <
      ctx.connectedPeers.length + 1) :
    ((handleVoteResponse ctx msg senderId
        (handleVoteResponse ctx msg senderId s).1).1 =
      (handleVoteResponse ctx msg senderId s).1) ∧
    ((handleVoteResponse ctx msg senderId s).1.activeVoteRequest =
      some { r with votes := mapSet senderId msg.vote r.votes }) ∧
    (((mapSet senderId msg.vote r.votes).map Prod.fst).Nodup) ∧
    ((handleVoteResponse ctx msg2 senderId
        (handleVoteResponse ctx msg senderId s).1).1.activeVoteRequest =
      some { r with votes := mapSet senderId msg2.vote r.votes }) := by
  obtain ⟨cm, pfu, avr⟩ := s
  have havr : avr = some r := hact
  subst havr
  have hnotle : ¬(ctx.connectedPeers.length + 1 ≤
      (mapSet senderId msg.vote r.votes).length) := not_le.mpr hlt
  have hlt2 : (mapSet senderId msg2.vote r.votes).length <
      ctx.connectedPeers.length + 1 := by
    rw [mapSet_length_indep senderId msg2.vote msg.vote r.votes]
    exact hlt
  have hnotle2 : ¬(ctx.connectedPeers.length + 1 ≤
      (mapSet senderId msg2.vote r.votes).length) := not_le.mpr hlt2
  have h1 : (handleVoteResponse ctx msg senderId ⟨cm, pfu, some r⟩).1 =
      ⟨cm, pfu, some { r with votes := mapSet senderId msg.vote r.votes }⟩ := by
    simp [handleVoteResponse, hreq, hnotle]
  refine ⟨?_, ?_, mapSet_keys_nodup senderId msg.vote r.votes hnodup, ?_⟩
  · rw [h1]
    simp [handleVoteResponse, hreq, mapSet_mapSet_same, hnotle]
  · rw [h1]
  · rw [h1]
    simp [handleVoteResponse, hreq2, mapSet_mapSet_same, hnotle2]

/-- C9 witness: the idempotence, keying and overwrite facts at the concrete
active vote `voteReq1` with C's vote delivered twice (yes then no). -/
theorem voteResponse_idempotent_witness :
    ((handleVoteResponse ctx3 (voteMsgC true) "C"
        (handleVoteResponse ctx3 (voteMsgC true) "C" stateActiveVote).1).1 =
      (handleVoteResponse ctx3 (voteMsgC true) "C" stateActiveVote).1) ∧
    ((handleVoteResponse ctx3 (voteMsgC true) "C" stateActiveVote).1.activeVoteRequest =
      some { voteReq1 with votes := mapSet "C" ((voteMsgC true).vote) voteReq1.votes }) ∧
    (((mapSet "C" ((voteMsgC true).vote) voteReq1.votes).map Prod.fst).Nodup) ∧
    ((handleVoteResponse ctx3 (voteMsgC false) "C"
        (handleVoteResponse ctx3 (voteMsgC true) "C" stateActiveVote).1).1.activeVoteRequest =
      some { voteReq1 with votes := mapSet "C" ((voteMsgC false).vote) voteReq1.votes }) :=
  voteResponse_idempotent_overwrite ctx3 (voteMsgC true) (voteMsgC false) "C"
    stateActiveVote voteReq1 rfl rfl rfl (by decide) (by decide)

/-! ## Registry lemmas for the reconnection window -/

theorem find_id_of_mem_nodup (peers : List Peer) (p : Peer)
    (hnodup : (peers.map Peer.id).Nodup) (hmem : p ∈ peers) :
    peers.find? (fun q => q.id = p.id) = some p := by
  induction peers with
  | nil => simp at hmem
  | cons h t ih =>
    rw [List.map_cons, List.nodup_cons] at hnodup
    rcases List.mem_cons.mp hmem with h1 | h1
    · subst h1
      simp [List.find?]
    · by_cases hid : h.id = p.id
      · exfalso
        exact hnodup.1 (hid ▸ List.mem_map_of_mem Peer.id h1)
      · rw [List.find?_cons_of_neg _ (by simp [hid])]
        exact ih hnodup.2 h1

theorem find_updatePeer (peers : List Peer) (k : String) (f : Peer → Peer)
    (hf : ∀ q, (f q).id = q.id) :
    (updatePeer peers k f).find? (fun q => q.id = k) =
      (peers.find? (fun q => q.id = k)).map f := by
  induction peers with
  | nil => rfl
  | cons h t ih =>
    by_cases hid : h.id = k
    · rw [show updatePeer (h :: t) k f = f h :: updatePeer t k f from by
        simp [updatePeer, hid]]
      rw [List.find?_cons_of_pos _ (by simp [hf, hid]),
        List.find?_cons_of_pos _ (by simp [hid])]
      rfl
    · rw [show updatePeer (h :: t) k f = h :: updatePeer t k f from by
        simp [updatePeer, hid]]
      rw [List.find?_cons_of_neg _ (by simp [hid]),
        List.find?_cons_of_neg _ (by simp [hid])]
      exact ih

theorem electLeader_mem (localId : String) (lp : ℚ) (peers : List Peer) :
    electLeader localId lp peers = localId ∨
      ∃ q ∈ peers, electLeader localId lp peers = q.id := by
  have hm := pickFirstMax_mem (⟨localId, lp⟩ : Candidate)
    ((peers.filter (fun p => p.status = PeerStatus.connected)).map
      (fun p => (⟨p.id, p.priority⟩ : Candidate)))
  have hE : electLeader localId lp peers =
      (pickFirstMax (⟨localId, lp⟩ : Candidate)
        ((peers.filter (fun p => p.status = PeerStatus.connected)).map
          (fun p => (⟨p.id, p.priority⟩ : Candidate)))).id := rfl
  rcases List.mem_cons.mp hm with h1 | h1
  · left
    rw [hE, h1]
  · right
    rcases List.mem_map.mp h1 with ⟨q, hq1, hq2⟩
    exact ⟨q, List.mem_of_mem_filter hq1, by rw [hE, ← hq2]⟩

/-! ## C5: the reconnection grace window -/

/-- C5: when the link of registered peer `p` closes, the record is kept with
status `reconnecting` (no peer-left event) and the grace timer for `p.id` is
pending.  If a fresh handshake for the same id arrives before the timer
fires, the record is restored to `connected` with the new connection, no
peer-joined or peer-left event fires, and the timer firing afterwards is a
complete no-op on the registry.  If instead the timer fires first, the record
is deleted, exactly one peer-left event fires (and no other), and — when the
removed peer was the known leader — the election re-runs over the remaining
registry and installs its winner. -/
theorem reconnect_grace_window
    (localId : String) (localPriority : ℚ) (s : MeshState) (p : Peer)
    (c2 : Nat) (nick2 : String) (pri2 : ℚ)
    (hfind : s.peers.find? (fun q => q.conn = p.conn) = some p)
    (hnodup : (s.peers.map Peer.id).Nodup)
    (hlocal : localId ≠ p.id) :
    ((handlePeerDisconnect p.conn s).2.countP isPeerLeft = 0) ∧
    ({ p with status := PeerStatus.reconnecting } ∈
        (handlePeerDisconnect p.conn s).1.peers) ∧
    (p.id ∈ (handlePeerDisconnect p.conn s).1.graceTimers) ∧
    ((registerPeer localId localPriority c2 p.id nick2 pri2
        (handlePeerDisconnect p.conn s).1).2 = []) ∧
    ({ p with conn := c2, status := PeerStatus.connected } ∈
        (registerPeer localId localPriority c2 p.id nick2 pri2
          (handlePeerDisconnect p.conn s).1).1.peers) ∧
    ((graceTimerFire localId localPriority p.id
        (registerPeer localId localPriority c2 p.id nick2 pri2
          (handlePeerDisconnect p.conn s).1).1).2 = []) ∧
    ((graceTimerFire localId localPriority p.id
        (registerPeer localId localPriority c2 p.id nick2 pri2
          (handlePeerDisconnect p.conn s).1).1).1.peers =
      (registerPeer localId localPriority c2 p.id nick2 pri2
        (handlePeerDisconnect p.conn s).1).1.peers) ∧
    ((graceTimerFire localId localPriority p.id
        (handlePeerDisconnect p.conn s).1).1.peers =
      removePeer (handlePeerDisconnect p.conn s).1.peers p.id) ∧
    ((graceTimerFire localId localPriority p.id
        (handlePeerDisconnect p.conn s).1).2.countP isPeerLeft = 1) ∧
    ((graceTimerFire localId localPriority p.id
        (handlePeerDisconnect p.conn s).1).2.count
          (MeshEvent.peerLeft p.id p.nickname) = 1) ∧
    (s.leaderId = some p.id →
      (graceTimerFire localId localPriority p.id
          (handlePeerDisconnect p.conn s).1).1.leaderId =
        some (electLeader localId localPriority
          (removePeer (handlePeerDisconnect p.conn s).1.peers p.id))) := by
  have hpmem : p ∈ s.peers := List.mem_of_find?_eq_some hfind
  have hfind_id : s.peers.find? (fun q => q.id = p.id) = some p :=
    find_id_of_mem_nodup s.peers p hnodup hpmem
  have hd : handlePeerDisconnect p.conn s =
      (⟨updatePeer s.peers p.id
          (fun q => { q with status := PeerStatus.reconnecting }),
        if p.id ∈ s.graceTimers then s.graceTimers else s.graceTimers ++ [p.id],
        s.leaderId⟩,
        [MeshEvent.statusChanged NetworkStatus.reconnecting]) := by
    simp [handlePeerDisconnect, hfind]
  have hfind1 : (updatePeer s.peers p.id
      (fun q => { q with status := PeerStatus.reconnecting })).find?
        (fun q => q.id = p.id) =
      some { p with status := PeerStatus.reconnecting } := by
    rw [find_updatePeer s.peers p.id
      (fun q => { q with status := PeerStatus.reconnecting }) (fun q => rfl),
      hfind_id]
    rfl
  have hmem1 : { p with status := PeerStatus.reconnecting } ∈
      updatePeer s.peers p.id
        (fun q => { q with status := PeerStatus.reconnecting }) :=
    List.mem_of_find?_eq_some hfind1
  have htimer : p.id ∈
      (if p.id ∈ s.graceTimers then s.graceTimers else s.graceTimers ++ [p.id]) := by
    split_ifs with h
    · exact h
    · simp
  have hreg : registerPeer localId localPriority c2 p.id nick2 pri2
      ⟨updatePeer s.peers p.id
          (fun q => { q with status := PeerStatus.reconnecting }),
        if p.id ∈ s.graceTimers then s.graceTimers else s.graceTimers ++ [p.id],
        s.leaderId⟩ =
      (⟨updatePeer (updatePeer s.peers p.id
            (fun q => { q with status := PeerStatus.reconnecting })) p.id
          (fun q => { q with conn := c2, status := PeerStatus.connected }),
        if p.id ∈ s.graceTimers then s.graceTimers else s.graceTimers ++ [p.id],
        s.leaderId⟩, []) := by
    simp [registerPeer, hfind1]
  have hfind2 : (updatePeer (updatePeer s.peers p.id
        (fun q => { q with status := PeerStatus.reconnecting })) p.id
      (fun q => { q with conn := c2, status := PeerStatus.connected })).find?
        (fun q => q.id = p.id) =
      some { p with conn := c2, status := PeerStatus.connected } := by
    rw [find_updatePeer (updatePeer s.peers p.id
        (fun q => { q with status := PeerStatus.reconnecting })) p.id
      (fun q => { q with conn := c2, status := PeerStatus.connected })
      (fun q => rfl), hfind1]
    rfl
  have hmem2 : { p with conn := c2, status := PeerStatus.connected } ∈
      updatePeer (updatePeer s.peers p.id
          (fun q => { q with status := PeerStatus.reconnecting })) p.id
        (fun q => { q with conn := c2, status := PeerStatus.connected }) :=
    List.mem_of_find?_eq_some hfind2
  have helectpeers : ∀ s3 : MeshState,
      (electLeaderStep localId localPriority s3).1.peers = s3.peers := by
    intro s3
    simp only [electLeaderStep]
    split_ifs <;> rfl
  have helectlead : ∀ s3 : MeshState, s3.leaderId = some p.id →
      (∀ q ∈ s3.peers, q.id ≠ p.id) →
      (electLeaderStep localId localPriority s3).1.leaderId =
        some (electLeader localId localPriority s3.peers) := by
    intro s3 hl hq
    have hne : electLeader localId localPriority s3.peers ≠ p.id := by
      rcases electLeader_mem localId localPriority s3.peers with h | ⟨q, hqm, he⟩
      · rw [h]; exact hlocal
      · rw [he]; exact hq q hqm
    simp only [electLeaderStep]
    rw [if_neg (by rw [hl]; intro hcontra; exact hne (Option.some.inj hcontra).symm)]
  have helectev : ∀ s3 : MeshState,
      (electLeaderStep localId localPriority s3).2.countP isPeerLeft = 0 := by
    intro s3
    simp only [electLeaderStep]
    split_ifs <;> rfl
  have helectcnt : ∀ s3 : MeshState,
      (electLeaderStep localId localPriority s3).2.count
        (MeshEvent.peerLeft p.id p.nickname) = 0 := by
    intro s3
    simp only [electLeaderStep]
    split_ifs <;> simp [List.count_cons]
  have hremove : ∀ q ∈ removePeer (updatePeer s.peers p.id
      (fun q => { q with status := PeerStatus.reconnecting })) p.id,
      q.id ≠ p.id := by
    intro q hq
    have := (List.mem_filter.mp hq).2
    simpa using this
  refine ⟨?_, ?_, ?_, ?_, ?_, ?_, ?_, ?_, ?_, ?_, ?_⟩
  · rw [hd]
    rfl
  · rw [hd]
    exact hmem1
  · rw [hd]
    exact htimer
  · rw [hd]
    dsimp only
    rw [hreg]
  · rw [hd]
    dsimp only
    rw [hreg]
    exact hmem2
  · rw [hd]
    dsimp only
    rw [hreg]
    dsimp only
    simp [graceTimerFire, htimer, hfind2]
  · rw [hd]
    dsimp only
    rw [hreg]
    dsimp only
    simp [graceTimerFire, htimer, hfind2]
  · rw [hd]
    dsimp only
    by_cases hlead : s.leaderId = some p.id
    · simp [graceTimerFire, htimer, hfind1, hlead, helectpeers]
    · simp [graceTimerFire, htimer, hfind1, hlead]
  · rw [hd]
    dsimp only
    by_cases hlead : s.leaderId = some p.id
    · simp [graceTimerFire, htimer, hfind1, hlead, helectev, isPeerLeft]
    · simp [graceTimerFire, htimer, hfind1, hlead, isPeerLeft]
  · rw [hd]
    dsimp only
    by_cases hlead : s.leaderId = some p.id
    · simp [graceTimerFire, htimer, hfind1, hlead, helectcnt, List.count_cons]
    · simp [graceTimerFire, htimer, hfind1, hlead, List.count_cons]
  · intro hlead
    rw [hd]
    dsimp only
    simp only [graceTimerFire, htimer, if_pos htimer, hfind1]
    simp only [hlead, if_pos rfl]
    exact helectlead _ rfl hremove

/-- C5 witness: the grace-window behavior at the concrete one-peer mesh
`meshS0` where the leader "B" over connection 7 disconnects, optionally
re-handshakes over connection 9, or times out. -/
theorem reconnect_grace_window_witness :
    ((handlePeerDisconnect meshPeerB.conn meshS0).2.countP isPeerLeft = 0) ∧
    ({ meshPeerB with status := PeerStatus.reconnecting } ∈
        (handlePeerDisconnect meshPeerB.conn meshS0).1.peers) ∧
    (meshPeerB.id ∈ (handlePeerDisconnect meshPeerB.conn meshS0).1.graceTimers) ∧
    ((registerPeer "A" 3 9 meshPeerB.id "Bea" 5
        (handlePeerDisconnect meshPeerB.conn meshS0).1).2 = []) ∧
    ({ meshPeerB with conn := 9, status := PeerStatus.connected } ∈
        (registerPeer "A" 3 9 meshPeerB.id "Bea" 5
          (handlePeerDisconnect meshPeerB.conn meshS0).1).1.peers) ∧
    ((graceTimerFire "A" 3 meshPeerB.id
        (registerPeer "A" 3 9 meshPeerB.id "Bea" 5
          (handlePeerDisconnect meshPeerB.conn meshS0).1).1).2 = []) ∧
    ((graceTimerFire "A" 3 meshPeerB.id
        (registerPeer "A" 3 9 meshPeerB.id "Bea" 5
          (handlePeerDisconnect meshPeerB.conn meshS0).1).1).1.peers =
      (registerPeer "A" 3 9 meshPeerB.id "Bea" 5
        (handlePeerDisconnect meshPeerB.conn meshS0).1).1.peers) ∧
    ((graceTimerFire "A" 3 meshPeerB.id
        (handlePeerDisconnect meshPeerB.conn meshS0).1).1.peers =
      removePeer (handlePeerDisconnect meshPeerB.conn meshS0).1.peers meshPeerB.id) ∧
    ((graceTimerFire "A" 3 meshPeerB.id
        (handlePeerDisconnect meshPeerB.conn meshS0).1).2.countP isPeerLeft = 1) ∧
    ((graceTimerFire "A" 3 meshPeerB.id
        (handlePeerDisconnect meshPeerB.conn meshS0).1).2.count
          (MeshEvent.peerLeft meshPeerB.id meshPeerB.nickname) = 1) ∧
    (meshS0.leaderId = some meshPeerB.id →
      (graceTimerFire "A" 3 meshPeerB.id
          (handlePeerDisconnect meshPeerB.conn meshS0).1).1.leaderId =
        some (electLeader "A" 3
          (removePeer (handlePeerDisconnect meshPeerB.conn meshS0).1.peers
            meshPeerB.id))) :=
  reconnect_grace_window "A" 3 meshS0 meshPeerB 9 "Bea" 5
    (by decide) (by decide) (by decide)

end LocalWatch
